import Mathlib

/-!
# Transactions of the ArangoDB Go driver (`transaction_impl.go`)

A shallow embedding of `src/transaction_impl.go`.

* Go strings are Lean `String`s (valid UTF-8 text).
* A Go `interface{}` value is a `GoValue`: the dynamic types that the code
  tells apart by type assertion (`bool`, `int`), plus `string` and a tagged
  rest.
* A Go `map[string]interface{}` is `GoMap`: `none` is the nil map, `some t`
  an allocated table with pairwise distinct keys.
* A `context.Context` is `Context`: `none` is the nil interface, `some c` a
  context with its method `Value`.
* Methods with a pointer receiver return the handle they leave behind;
  a run-time panic is an explicit outcome.
* The order in which a `range` over a map visits the keys is left open by
  the language: a run of `Execute` takes the number `order` of its order.
* The transport (`Connection`, `Request`, `Response`), `WithStack` and
  `path.Join` are collaborators outside this file: they are parameters.
* The JSON object of a handle follows its field tags and the `omitempty`
  rule of `encoding/json`.
-/

namespace Driver

/-! ## Go values, maps and contexts -/

/-- A Go `interface{}` value, by dynamic type. `nil` is the nil interface;
`int` holds a Go `int` (no arithmetic is done on it in this file); `other`
stands for a value of any further dynamic type. -/
inductive GoValue
  | nil
  | bool (b : Bool)
  | int (n : Int)
  | string (s : String)
  | other (tag : Nat)
  deriving DecidableEq, Repr

/-- An allocated Go map from `string` to `interface{}`: keys are distinct. -/
abbrev ParamTable := AList (fun _ : String => GoValue)

/-- A Go `map[string]interface{}` value; `none` is the nil map. -/
abbrev GoMap := Option ParamTable

/-- The read `v, ok := m[k]`: `none` when `k` is not a key (or `m` is nil). -/
def mapLookup (m : GoMap) (k : String) : Option GoValue :=
  match m with
  | none => none
  | some t => t.lookup k

/-- The keys of a map; a nil map has none. -/
def mapKeys (m : GoMap) : List String :=
  match m with
  | none => []
  | some t => t.keys

/-- The entries that `for key, value := range m` visits; a nil map has none. -/
def rangeEntries (m : GoMap) : List (Sigma fun _ : String => GoValue) :=
  match m with
  | none => []
  | some t => t.entries

/-- The loop `for key, value := range params { dst[key] = value }` over the
visited entries: an assignment to an entry of a nil map panics. -/
def mergeEntries : GoMap → List (Sigma fun _ : String => GoValue) → Except String GoMap
  | m, [] => Except.ok m
  | none, _ :: _ => Except.error "assignment to entry in nil map"
  | some t, e :: rest => mergeEntries (some (t.insert e.1 e.2)) rest

/-- An order in which `for k := range m` may visit the keys of `m`: every key
exactly once, in an order the language leaves open. -/
def RangeOrder (m : GoMap) (order : List String) : Prop :=
  order.Perm (mapKeys m)

/-- The keys of `m` in the order in which one run of `for k := range m`
visits them: every key once. The language leaves the order open; the number
`order` tells which of the arrangements of the keys the run takes (a number
beyond their count stands for the arrangement of the table). -/
def rangeKeys (order : Nat) (m : GoMap) : List String :=
  List.getD (List.permutations' (mapKeys m)) order (mapKeys m)

/-- A non-nil `context.Context`, as far as this file uses it: its method
`Value`, from a key to the value stored under it, the nil interface when
there is none. -/
structure Ctx where
  Value : GoValue → GoValue

/-- A `context.Context` interface value; `none` is nil. -/
abbrev Context := Option Ctx

/-- The context `context.Background()`: it carries no values. -/
def Ctx.background : Ctx :=
  { Value := fun _ => GoValue.nil }

/-- The context `context.WithValue(parent, key, val)`: `val` under `key`, the
parent's values under every other key. -/
def Ctx.withValue (parent : Ctx) (key val : GoValue) : Ctx :=
  { Value := fun k => if key = k then val else parent.Value k }

/-- Modelled from the spec: `contextOrBackground` is defined elsewhere in the
package and not part of this file; the setters "attach" a setting "to a
context", so a given parent is kept, and for a missing (nil) parent the
background context, which carries no values, is used. -/
def contextOrBackground (parent : Context) : Ctx :=
  match parent with
  | none => Ctx.background
  | some c => c

/-! ## Context keys and setters (lines 32-62) -/

def keyTransactionWaitForSync : String := "arangodb-transaction-waitForSync"

def keyTransactionLockTimeout : String := "arangodb-transaction-lockTimeout"

def keyTransactionAllowImplicit : String := "arangodb-transaction-allowImplicit"

/-- The variadic `value ...bool` is the list `value`. -/
def WithTransactionAllowImplicit (parent : Context) (value : List Bool) : Ctx :=
  let v := match value with
    | [] => true
    | v0 :: _ => v0
  Ctx.withValue (contextOrBackground parent)
    (GoValue.string keyTransactionAllowImplicit) (GoValue.bool v)

def WithTransactionWaitForSync (parent : Context) (value : List Bool) : Ctx :=
  let v := match value with
    | [] => true
    | v0 :: _ => v0
  Ctx.withValue (contextOrBackground parent)
    (GoValue.string keyTransactionWaitForSync) (GoValue.bool v)

def WithTransactionLockTimeout (parent : Context) (value : Int) : Ctx :=
  Ctx.withValue (contextOrBackground parent)
    (GoValue.string keyTransactionLockTimeout) (GoValue.int value)

/-! ## The handle (lines 64-91) -/

/-- The owning database, as far as this file uses it: the value of
`db.relPath()`. Its connection `db.conn` is the `Connection` argument of
`Execute`. -/
structure database where
  relPath : String
  deriving DecidableEq, Repr

structure transactionCollections where
  Read : List String
  Write : List String
  AllowImplicit : Bool
  deriving DecidableEq, Repr

structure transaction where
  db : database
  Collections : transactionCollections
  Action : String
  WaitForSync : Bool
  LockTimeout : Int
  Params : GoMap
  deriving DecidableEq

/-- The type `RawObject` is a byte slice. -/
abbrev RawObject := List Nat

/-- The field `Result *RawObject`; `none` is the nil pointer. -/
structure transactionData where
  Result : Option RawObject
  deriving DecidableEq, Repr

/-- Every field that the composite literal leaves out has its zero value;
`Params` is the nil map. -/
def newTransaction (db : database) (read : List String) (write : List String) : transaction :=
  { db := db
    Collections := { Read := read, Write := write, AllowImplicit := false }
    Action := ""
    WaitForSync := false
    LockTimeout := 0
    Params := none }

/-! ## `fmt.Sprintf` with the verb `%q` (standard library)

The verb `%q` without flags formats a string with `strconv.Quote`: a
double-quoted Go string literal with escapes. The Unicode table behind
`strconv.IsPrint` for code points above `0xFF` is the parameter
`isPrintTable`. -/

def lowerhex : String := "0123456789abcdef"

/-- The byte `lowerhex[n & 0xF]`. -/
def hexDigit (n : Nat) : String :=
  String.singleton (lowerhex.toList.getD (n % 16) '0')

def backslash : String := String.singleton (Char.ofNat 92)

def dquote : String := String.singleton (Char.ofNat 34)

/-- The function `strconv.IsPrint`: the Latin-1 fast path is spelled out,
larger code points are looked up in the table. -/
def IsPrint (isPrintTable : Nat → Bool) (r : Nat) : Bool :=
  if r ≤ 0xFF then
    if 0x20 ≤ r ∧ r ≤ 0x7E then true
    else if 0xA1 ≤ r ∧ r ≤ 0xFF then r != 0xAD
    else false
  else isPrintTable r

/-- The function `strconv.appendEscapedRune` for the double quote, with
`ASCIIonly` and `graphicOnly` false. -/
def appendEscapedRune (isPrintTable : Nat → Bool) (c : Char) : String :=
  let r := c.toNat
  if r = 34 ∨ r = 92 then backslash ++ String.singleton c
  else if IsPrint isPrintTable r then String.singleton c
  else if r = 7 then backslash ++ "a"
  else if r = 8 then backslash ++ "b"
  else if r = 12 then backslash ++ "f"
  else if r = 10 then backslash ++ "n"
  else if r = 13 then backslash ++ "r"
  else if r = 9 then backslash ++ "t"
  else if r = 11 then backslash ++ "v"
  else if r < 32 ∨ r = 0x7f then backslash ++ "x" ++ hexDigit (r / 16) ++ hexDigit r
  else if r < 0x10000 then
    backslash ++ "u" ++ hexDigit (r / 4096) ++ hexDigit (r / 256) ++ hexDigit (r / 16) ++ hexDigit r
  else
    backslash ++ "U" ++ hexDigit (r / 268435456) ++ hexDigit (r / 16777216)
      ++ hexDigit (r / 1048576) ++ hexDigit (r / 65536)
      ++ hexDigit (r / 4096) ++ hexDigit (r / 256) ++ hexDigit (r / 16) ++ hexDigit r

/-- The function `strconv.Quote`, which is what `%q` prints for a string. -/
def Quote (isPrintTable : Nat → Bool) (s : String) : String :=
  dquote ++ String.join (s.toList.map (appendEscapedRune isPrintTable)) ++ dquote

/-! ## Adding code (lines 131-146) -/

/-- How a call ends: it returns its `error` result (`none` is the nil error)
or it panics. -/
inductive Outcome
  | returned (err : Option String)
  | panicked (msg : String)
  deriving DecidableEq, Repr

/-- The method `AddAQL` (pointer receiver): the handle the call leaves behind
and how the call ends. The action is extended before the loop runs, so it is
extended also when the loop panics. -/
def AddAQL (isPrintTable : Nat → Bool) (tx : transaction) (query : String) (params : GoMap) :
    transaction × Outcome :=
  let tx := { tx with Action := tx.Action ++ ("db.query(" ++ Quote isPrintTable query ++ ");") }
  match mergeEntries tx.Params (rangeEntries params) with
  | Except.ok m => ({ tx with Params := m }, Outcome.returned none)
  | Except.error msg => (tx, Outcome.panicked msg)

/-- The method `AddJSQuery` (pointer receiver). -/
def AddJSQuery (tx : transaction) (js : String) (params : GoMap) : transaction × Outcome :=
  let tx := { tx with Action := tx.Action ++ js }
  match mergeEntries tx.Params (rangeEntries params) with
  | Except.ok m => ({ tx with Params := m }, Outcome.returned none)
  | Except.error msg => (tx, Outcome.panicked msg)

/-- One call that adds code: which variant, the fragment, the parameters. -/
inductive AddCall
  | aql (query : String) (params : GoMap)
  | js (code : String) (params : GoMap)

/-- Performs one call on the handle. -/
def AddCall.run (isPrintTable : Nat → Bool) (tx : transaction) : AddCall → transaction × Outcome
  | AddCall.aql query params => AddAQL isPrintTable tx query params
  | AddCall.js code params => AddJSQuery tx code params

/-- The parameter mapping that comes with a call. -/
def AddCall.params : AddCall → GoMap
  | AddCall.aql _ params => params
  | AddCall.js _ params => params

/-- Calls `AddJSQuery` with each fragment in turn on the handle that the call
before left behind. -/
def addJSQueries (tx : transaction) (calls : List (String × GoMap)) : transaction :=
  calls.foldl (fun t c => (AddJSQuery t c.1 c.2).1) tx

/-! ## Settings from the context (lines 148-168) -/

/-- The method `applyContextSettings` (pointer receiver): the handle it
leaves behind. A type assertion `rawValue.(bool)` succeeds on a `bool`
only, `rawValue.(int)` on an `int` only. -/
def applyContextSettings (tx : transaction) (ctx : Context) : transaction :=
  match ctx with
  | none => tx
  | some c =>
    let tx1 :=
      match c.Value (GoValue.string keyTransactionWaitForSync) with
      | GoValue.bool value =>
        { tx with Collections := { tx.Collections with AllowImplicit := value } }
      | _ => tx
    let tx2 :=
      match c.Value (GoValue.string keyTransactionWaitForSync) with
      | GoValue.bool value => { tx1 with WaitForSync := value }
      | _ => tx1
    match c.Value (GoValue.string keyTransactionLockTimeout) with
    | GoValue.int value => { tx2 with LockTimeout := value }
    | _ => tx2

/-! ## Execution (lines 95-129) -/

/-- The collaborators of `Execute`: the methods of the connection, of the
request and of the response that it calls, `WithStack`, and `path.Join`.
`Req`, `Resp` and `Dest` are the types of requests, of responses and of the
caller's destination. An `Except.error` is a non-nil `error` result. -/
structure Connection (Req Resp Dest : Type) where
  NewRequest : String → String → Except String Req
  SetBody : Req → transaction → Except String Req
  Do : Context → Req → Except String Resp
  CheckStatus : Resp → Int → Option String
  ParseBody : Resp → String → Except String transactionData
  Unmarshal : RawObject → Dest → Dest × Option String
  WithStack : String → String
  pathJoin : List String → String

/-- The method `relPath` of the handle. -/
def transaction.relPath {Req Resp Dest : Type} (conn : Connection Req Resp Dest)
    (tx : transaction) : String :=
  conn.pathJoin [tx.db.relPath, "_api", "transaction"]

/-- A call that `Execute` makes on a collaborator. -/
inductive Step
  | newRequest (method path : String)
  | setBody (body : transaction)
  | doRequest
  | checkStatus (code : Int)
  | parseBody (field : String)
  | unmarshal (raw : RawObject)
  deriving DecidableEq

/-- What a call of `Execute` leaves behind: the caller's handle, the caller's
destination, the calls made on the collaborators in order, and how it ends. -/
structure ExecuteRun (Dest : Type) where
  handle : transaction
  dest : Dest
  steps : List Step
  outcome : Outcome

/-- The action that lines 100-105 build: `paramKeys` joined by commas as the
parameter list, the action so far as the body. -/
def wrapAction (paramKeys : List String) (action : String) : String :=
  "function(" ++ String.intercalate "," paramKeys ++ ")\x7b " ++ action ++ " \x7d"

/-- Lines 100-103: `paramKeys` starts as the nil slice, and the loop
`for k := range params` appends every key it visits. -/
def collectParamKeys (order : Nat) (params : GoMap) : List String :=
  (rangeKeys order params).foldl (fun paramKeys k => paramKeys ++ [k]) []

/-- The method `Execute`. Its receiver is a value: `tx` is a copy of the
caller's handle, and the assignments to `tx.Action` (line 104) and through
`tx.applyContextSettings` (line 110) change the copy, so the caller's handle
is as it was. `order` is the order that the range over `tx.Params` takes in
this run. Dereferencing the nil `data.Result` panics. -/
def Execute {Req Resp Dest : Type} (conn : Connection Req Resp Dest) (tx : transaction)
    (order : Nat) (ctx : Context) (result : Dest) : ExecuteRun Dest :=
  let paramKeys := collectParamKeys order tx.Params
  let tx1 := { tx with Action := wrapAction paramKeys tx.Action }
  let s1 := [Step.newRequest "POST" (tx1.relPath conn)]
  match conn.NewRequest "POST" (tx1.relPath conn) with
  | Except.error err => ⟨tx, result, s1, Outcome.returned (some (conn.WithStack err))⟩
  | Except.ok req =>
    let tx2 := applyContextSettings tx1 ctx
    let s2 := s1 ++ [Step.setBody tx2]
    match conn.SetBody req tx2 with
    | Except.error err => ⟨tx, result, s2, Outcome.returned (some (conn.WithStack err))⟩
    | Except.ok req1 =>
      let s3 := s2 ++ [Step.doRequest]
      match conn.Do ctx req1 with
      | Except.error err => ⟨tx, result, s3, Outcome.returned (some (conn.WithStack err))⟩
      | Except.ok resp =>
        let s4 := s3 ++ [Step.checkStatus 201]
        match conn.CheckStatus resp 201 with
        | some err => ⟨tx, result, s4, Outcome.returned (some (conn.WithStack err))⟩
        | none =>
          let s5 := s4 ++ [Step.parseBody ""]
          match conn.ParseBody resp "" with
          | Except.error err => ⟨tx, result, s5, Outcome.returned (some (conn.WithStack err))⟩
          | Except.ok data =>
            match data.Result with
            | none =>
              ⟨tx, result, s5,
                Outcome.panicked
                  "runtime error: invalid memory address or nil pointer dereference"⟩
            | some raw =>
              let s6 := s5 ++ [Step.unmarshal raw]
              match conn.Unmarshal raw result with
              | (result1, some err) =>
                ⟨tx, result1, s6, Outcome.returned (some (conn.WithStack err))⟩
              | (result1, none) => ⟨tx, result1, s6, Outcome.returned none⟩

/-- The bodies handed to `SetBody` among the calls made. -/
def sentBodies : List Step → List transaction
  | [] => []
  | Step.setBody body :: rest => body :: sentBodies rest
  | _ :: rest => sentBodies rest

/-- A transport whose every call succeeds; the response carries the raw
result `raw`, which is decoded to itself. -/
def echoConn (raw : RawObject) : Connection Unit Unit RawObject :=
  { NewRequest := fun _ _ => Except.ok ()
    SetBody := fun _ _ => Except.ok ()
    Do := fun _ _ => Except.ok ()
    CheckStatus := fun _ code => if code = 201 then none else some "unexpected status"
    ParseBody := fun _ _ => Except.ok { Result := some raw }
    Unmarshal := fun r _ => (r, none)
    WithStack := fun err => err
    pathJoin := fun parts => String.intercalate "/" parts }

/-- A database with the relative path `_db/demo`. -/
def demoDb : database := { relPath := "_db/demo" }

/-- An allocated map with the single entry `k ↦ v`. -/
def singleParam (k : String) (v : GoValue) : GoMap :=
  some ((∅ : ParamTable).insert k v)

/-- The handle `tx` with an allocated, empty `Params`. -/
def withEmptyParams (tx : transaction) : transaction :=
  { tx with Params := some (∅ : ParamTable) }

/-- Two calls that add code: a query with the parameter `a`, then raw code
with the parameter `b`. -/
def demoCalls : List AddCall :=
  [AddCall.aql "RETURN @a" (singleParam "a" (GoValue.int 1)),
   AddCall.js "return b;" (singleParam "b" (GoValue.int 2))]

/-- The handle that `demoCalls` leave behind on a handle without collections
whose `Params` was allocated. -/
def demoHandle : transaction :=
  { db := demoDb
    Collections := { Read := [], Write := [], AllowImplicit := false }
    Action := "db.query(\x22RETURN @a\x22);return b;"
    WaitForSync := false
    LockTimeout := 0
    Params := some (((∅ : ParamTable).insert "a" (GoValue.int 1)).insert "b" (GoValue.int 2)) }

/-- Text made of printable ASCII characters other than the double quote and
the backslash. -/
def plainText (s : String) : Bool :=
  s.toList.all fun c => decide (0x20 ≤ c.toNat ∧ c.toNat ≤ 0x7E ∧ c.toNat ≠ 34 ∧ c.toNat ≠ 92)

/-- The type assertion `v.(bool)` succeeds. -/
def GoValue.isBool : GoValue → Bool
  | GoValue.bool _ => true
  | _ => false

/-- The type assertion `v.(int)` succeeds. -/
def GoValue.isInt : GoValue → Bool
  | GoValue.int _ => true
  | _ => false

/-- None of the three setting keys holds a value of its expected type in the
context: the context is nil, or the wait-for-sync and the allow-implicit key
hold no `bool` and the lock-timeout key holds no `int`. -/
def noTypedSetting (ctx : Context) : Bool :=
  match ctx with
  | none => true
  | some c =>
    !(c.Value (GoValue.string keyTransactionWaitForSync)).isBool
      && !(c.Value (GoValue.string keyTransactionAllowImplicit)).isBool
      && !(c.Value (GoValue.string keyTransactionLockTimeout)).isInt

/-- A context with wrongly typed settings: an integer under the wait-for-sync
key, a boolean under the lock-timeout key. -/
def wrongTypedCtx : Ctx :=
  Ctx.withValue
    (Ctx.withValue Ctx.background (GoValue.string keyTransactionWaitForSync) (GoValue.int 1))
    (GoValue.string keyTransactionLockTimeout) (GoValue.bool true)

/-- The copy of the handle that `Execute` hands to `SetBody` (lines 104 and
110): the action wrapped, the settings of the context applied. -/
def requestBody (tx : transaction) (order : Nat) (ctx : Context) : transaction :=
  applyContextSettings
    { tx with Action := wrapAction (collectParamKeys order tx.Params) tx.Action } ctx

/-- A transport whose step number `failAt` fails and whose other steps
succeed: 1 is the request construction, 2 the body attachment, 3 the
dispatch, 4 the status check, 5 the body parsing, 6 the decoding. The parsed
body has the result pointer `parsed`; decoding stores the raw result in the
destination. -/
def stagedConn (failAt : Nat) (parsed : Option RawObject) : Connection Unit Unit RawObject :=
  { NewRequest := fun _ _ =>
      if failAt = 1 then Except.error "cannot build request" else Except.ok ()
    SetBody := fun _ _ =>
      if failAt = 2 then Except.error "cannot encode body" else Except.ok ()
    Do := fun _ _ =>
      if failAt = 3 then Except.error "connection refused" else Except.ok ()
    CheckStatus := fun _ _ =>
      if failAt = 4 then some "unexpected status 404" else none
    ParseBody := fun _ _ =>
      if failAt = 5 then Except.error "malformed body" else Except.ok { Result := parsed }
    Unmarshal := fun r d =>
      if failAt = 6 then (d, some "cannot decode result") else (r, none)
    WithStack := fun err => err
    pathJoin := fun parts => String.intercalate "/" parts }

/-- A call that may change a handle before it is executed. -/
inductive HandleOp
  | add (call : AddCall)
  | applyContext (ctx : Context)

/-- The handle that the call leaves behind, also when the call panics. -/
def HandleOp.run (isPrintTable : Nat → Bool) (tx : transaction) : HandleOp → transaction
  | HandleOp.add call => (call.run isPrintTable tx).1
  | HandleOp.applyContext ctx => applyContextSettings tx ctx

/-- Performs the calls one after the other on the same handle. -/
def runOps (isPrintTable : Nat → Bool) (tx : transaction) (ops : List HandleOp) : transaction :=
  ops.foldl (fun t op => op.run isPrintTable t) tx

/-- The handle after the calls that add code, one after the other on the same
handle; a call that panics leaves the handle as it is at the panic. -/
def afterCalls (isPrintTable : Nat → Bool) (tx : transaction) (calls : List AddCall) :
    transaction :=
  runOps isPrintTable tx (calls.map HandleOp.add)

/-- Every transport step of `Execute` succeeds, in the order of the calls:
the request is built, the body attached, the request dispatched, the status
check against 201 passed, the body parsed with a result, the result
decoded. -/
def AllStepsSucceed {Req Resp Dest : Type} (conn : Connection Req Resp Dest) (tx : transaction)
    (order : Nat) (ctx : Context) (result : Dest) : Prop :=
  ∃ (req req1 : Req) (resp : Resp) (raw : RawObject) (decoded : Dest),
    conn.NewRequest "POST" (tx.relPath conn) = Except.ok req ∧
    conn.SetBody req (requestBody tx order ctx) = Except.ok req1 ∧
    conn.Do ctx req1 = Except.ok resp ∧
    conn.CheckStatus resp 201 = none ∧
    conn.ParseBody resp "" = Except.ok { Result := some raw } ∧
    conn.Unmarshal raw result = (decoded, none)

/-- A transport whose response has the status `status` and the parsed result
pointer `parsed`; every step but the status check succeeds, and the status
check succeeds when the expected code is the status. -/
def statusConn (status : Int) (parsed : Option RawObject) : Connection Unit Unit RawObject :=
  { NewRequest := fun _ _ => Except.ok ()
    SetBody := fun _ _ => Except.ok ()
    Do := fun _ _ => Except.ok ()
    CheckStatus := fun _ code => if code = status then none else some "unexpected status"
    ParseBody := fun _ _ => Except.ok { Result := parsed }
    Unmarshal := fun r _ => (r, none)
    WithStack := fun err => err
    pathJoin := fun parts => String.intercalate "/" parts }

/-- A context with the wait-for-sync key true and the allow-implicit key
false. -/
def syncOnlyCtx : Ctx :=
  WithTransactionWaitForSync (some (WithTransactionAllowImplicit none [false])) [true]

/-! ## Serialisation by the field tags (lines 64-77, `encoding/json`) -/

/-- A JSON value; the members of an object are in the order of writing.
`foreign` is the encoding of a Go value whose dynamic type is outside this
file, not looked into. -/
inductive JSON
  | null
  | bool (b : Bool)
  | number (n : Int)
  | string (s : String)
  | array (items : List JSON)
  | object (members : List (String × JSON))
  | foreign (tag : Nat)

/-- The value of the member `key` of an object, if it has one. -/
def JSON.get (j : JSON) (key : String) : Option JSON :=
  match j with
  | JSON.object members => (members.find? fun m => m.1 == key).map fun m => m.2
  | _ => none

/-- The object has a member `key`. -/
def JSON.hasKey (j : JSON) (key : String) : Bool :=
  (j.get key).isSome

/-- The member that a field tagged `json:"name,omitempty"` contributes to the
object of its struct: none when the field holds the empty value of its kind
(`isEmptyValue`: false, 0, a string, slice or map of length 0; a struct is
never empty). -/
def omitEmpty (name : String) (isEmpty : Bool) (value : JSON) : List (String × JSON) :=
  if isEmpty then [] else [(name, value)]

/-- The encoding of an `interface{}` value; `encodeOther` gives it for a value
of another dynamic type, `none` when `encoding/json` rejects the value. -/
def marshalValue (encodeOther : Nat → Option JSON) : GoValue → Option JSON
  | GoValue.nil => some JSON.null
  | GoValue.bool b => some (JSON.bool b)
  | GoValue.int n => some (JSON.number n)
  | GoValue.string s => some (JSON.string s)
  | GoValue.other tag => encodeOther tag

/-- The encoding of a map: `null` for the nil map, else an object with the
keys in sorted order (strings compare character by character). -/
def marshalMap (encodeOther : Nat → Option JSON) (m : GoMap) : Option JSON :=
  match m with
  | none => some JSON.null
  | some t =>
    ((t.entries.insertionSort fun a b => a.1.toList ≤ b.1.toList).mapM fun e =>
      (marshalValue encodeOther e.2).map fun j => (e.1, j)).map JSON.object

/-- The encoding of `transactionCollections` by its tags (lines 73-77). -/
def marshalCollections (c : transactionCollections) : JSON :=
  JSON.object
    (omitEmpty "read" (c.Read.length == 0) (JSON.array (c.Read.map JSON.string))
      ++ omitEmpty "write" (c.Write.length == 0) (JSON.array (c.Write.map JSON.string))
      ++ omitEmpty "allowImplicit" (c.AllowImplicit == false) (JSON.bool c.AllowImplicit))

/-- The encoding of `transaction` by its tags (lines 64-71), as
`json.Marshal` does it: the unexported `db` is skipped, the other fields
come in the order of declaration; `none` when a parameter value is
rejected. -/
def Marshal (encodeOther : Nat → Option JSON) (tx : transaction) : Option JSON :=
  match marshalMap encodeOther tx.Params with
  | none => none
  | some params =>
    some (JSON.object
      (omitEmpty "collections" false (marshalCollections tx.Collections)
        ++ omitEmpty "action" (tx.Action.length == 0) (JSON.string tx.Action)
        ++ omitEmpty "waitForSync" (tx.WaitForSync == false) (JSON.bool tx.WaitForSync)
        ++ omitEmpty "lockTimeout" (tx.LockTimeout == 0) (JSON.number tx.LockTimeout)
        ++ omitEmpty "params" ((mapKeys tx.Params).length == 0) params))

/-- The JSON object of the body that `Execute` sends for `demoHandle` under
`syncOnlyCtx`: no `lockTimeout`, and no `read` and `write` in
`collections`. -/
def demoJSON : JSON :=
  JSON.object
    [("collections", JSON.object [("allowImplicit", JSON.bool true)]),
     ("action", JSON.string "function(a,b)\x7b db.query(\x22RETURN @a\x22);return b; \x7d"),
     ("waitForSync", JSON.bool true),
     ("params", JSON.object [("a", JSON.number 1), ("b", JSON.number 2)])]

/-! ## Auxiliary facts -/

theorem applyContextSettings_Action (tx : transaction) (ctx : Context) :
    (applyContextSettings tx ctx).Action = tx.Action := by
  cases ctx with
  | none => rfl
  | some c =>
    simp only [applyContextSettings]
    split <;> split <;> split <;> rfl

theorem applyContextSettings_Params (tx : transaction) (ctx : Context) :
    (applyContextSettings tx ctx).Params = tx.Params := by
  cases ctx with
  | none => rfl
  | some c =>
    simp only [applyContextSettings]
    split <;> split <;> split <;> rfl

/-- The bodies that one `Execute` hands to `SetBody`: none when the request
cannot be built, else the copy of the handle with the wrapped action and the
context settings applied. -/
theorem sentBodies_Execute {Req Resp Dest : Type} (conn : Connection Req Resp Dest)
    (tx : transaction) (order : Nat) (ctx : Context) (result : Dest) :
    sentBodies (Execute conn tx order ctx result).steps =
      match conn.NewRequest "POST" (tx.relPath conn) with
      | Except.error _ => []
      | Except.ok _ =>
        [applyContextSettings { tx with Action := wrapAction (collectParamKeys order tx.Params) tx.Action } ctx] := by
  unfold Execute
  simp only [transaction.relPath]
  repeat' split
  all_goals simp_all [sentBodies]

theorem Execute_handle {Req Resp Dest : Type} (conn : Connection Req Resp Dest)
    (tx : transaction) (order : Nat) (ctx : Context) (result : Dest) :
    (Execute conn tx order ctx result).handle = tx := by
  unfold Execute
  dsimp only
  repeat' split
  all_goals rfl

theorem sentBodies_Action {Req Resp Dest : Type} (conn : Connection Req Resp Dest)
    (tx : transaction) (order : Nat) (ctx : Context) (result : Dest)
    (b : transaction) (hb : b ∈ sentBodies (Execute conn tx order ctx result).steps) :
    b.Action = wrapAction (collectParamKeys order tx.Params) tx.Action := by
  rw [sentBodies_Execute] at hb
  split at hb
  · simp at hb
  · simp only [List.mem_singleton] at hb
    rw [hb, applyContextSettings_Action]

theorem mergeEntries_some (t : ParamTable) (es : List (Sigma fun _ : String => GoValue)) :
    mergeEntries (some t) es =
      Except.ok (some (es.foldl (fun a e => a.insert e.1 e.2) t)) := by
  induction es generalizing t with
  | nil => rfl
  | cons e rest ih => simp only [mergeEntries, List.foldl_cons]; exact ih _

theorem lookup_foldl_insert (es : List (Sigma fun _ : String => GoValue))
    (hes : es.NodupKeys) (t : ParamTable) (k : String) :
    (es.foldl (fun a e => a.insert e.1 e.2) t).lookup k =
      (match List.dlookup k es with
       | some v => some v
       | none => t.lookup k) := by
  induction es generalizing t with
  | nil => rfl
  | cons e rest ih =>
    obtain ⟨hnot, hrest⟩ := List.nodupKeys_cons.mp hes
    rw [List.foldl_cons, ih hrest]
    by_cases hk : k = e.1
    · subst hk
      have hnone : List.dlookup e.1 rest = none := List.dlookup_eq_none.mpr hnot
      rw [hnone]
      obtain ⟨e1, e2⟩ := e
      simp [List.dlookup_cons_eq, AList.lookup_insert]
    · obtain ⟨e1, e2⟩ := e
      have hk1 : k ≠ e1 := hk
      rw [List.dlookup_cons_ne _ _ hk1, AList.lookup_insert_ne hk1]

/-- The loop over the entries of `params` into an allocated map: afterwards a
key of `params` has the value from `params`, any other key the value it had. -/
theorem mapLookup_merge (t : ParamTable) (params : GoMap) (k : String) :
    ∃ m, mergeEntries (some t) (rangeEntries params) = Except.ok m ∧
      mapLookup m k =
        (match mapLookup params k with
         | some v => some v
         | none => t.lookup k) := by
  refine ⟨_, mergeEntries_some t _, ?_⟩
  cases params with
  | none => rfl
  | some p => exact lookup_foldl_insert p.entries p.nodupKeys t k

/-- On a handle whose `Params` is allocated, `AddJSQuery` returns nil and
merges the supplied parameters, the supplied value winning. -/
theorem AddJSQuery_allocated (tx : transaction) (t : ParamTable) (ht : tx.Params = some t)
    (js : String) (params : GoMap) :
    (AddJSQuery tx js params).2 = Outcome.returned none ∧
    ∀ k, mapLookup (AddJSQuery tx js params).1.Params k =
      (match mapLookup params k with
       | some v => some v
       | none => mapLookup tx.Params k) := by
  simp only [AddJSQuery, ht, mergeEntries_some]
  refine ⟨trivial, fun k => ?_⟩
  obtain ⟨m, hm, hk⟩ := mapLookup_merge t params k
  rw [mergeEntries_some] at hm
  cases hm
  exact hk

/-- On a handle whose `Params` is allocated, `AddAQL` returns nil and merges
the supplied parameters, the supplied value winning. -/
theorem AddAQL_allocated (isPrintTable : Nat → Bool) (tx : transaction) (t : ParamTable)
    (ht : tx.Params = some t) (query : String) (params : GoMap) :
    (AddAQL isPrintTable tx query params).2 = Outcome.returned none ∧
    ∀ k, mapLookup (AddAQL isPrintTable tx query params).1.Params k =
      (match mapLookup params k with
       | some v => some v
       | none => mapLookup tx.Params k) := by
  simp only [AddAQL, ht, mergeEntries_some]
  refine ⟨trivial, fun k => ?_⟩
  obtain ⟨m, hm, hk⟩ := mapLookup_merge t params k
  rw [mergeEntries_some] at hm
  cases hm
  exact hk

theorem mapKeys_nodup (m : GoMap) : (mapKeys m).Nodup := by
  cases m with
  | none => exact List.nodup_nil
  | some t => exact t.keys_nodup

theorem mem_mapKeys (m : GoMap) (k : String) :
    k ∈ mapKeys m ↔ (mapLookup m k).isSome = true := by
  cases m with
  | none => simp [mapKeys, mapLookup]
  | some t =>
    simp only [mapKeys, mapLookup]
    rw [AList.lookup_isSome, AList.mem_keys]

theorem join_cons (a : String) (l : List String) :
    String.join (a :: l) = a ++ String.join l := by
  apply String.ext
  simp [String.data_join]

theorem AddJSQuery_Action (tx : transaction) (js : String) (params : GoMap) :
    (AddJSQuery tx js params).1.Action = tx.Action ++ js := by
  unfold AddJSQuery
  dsimp only
  split <;> rfl

theorem AddAQL_Action (isPrintTable : Nat → Bool) (tx : transaction) (query : String)
    (params : GoMap) :
    (AddAQL isPrintTable tx query params).1.Action =
      tx.Action ++ ("db.query(" ++ Quote isPrintTable query ++ ");") := by
  unfold AddAQL
  dsimp only
  split <;> rfl

theorem appendEscapedRune_plain (isPrintTable : Nat → Bool) (c : Char)
    (hc : 0x20 ≤ c.toNat ∧ c.toNat ≤ 0x7E ∧ c.toNat ≠ 34 ∧ c.toNat ≠ 92) :
    appendEscapedRune isPrintTable c = String.singleton c := by
  obtain ⟨h1, h2, h3, h4⟩ := hc
  have hp : IsPrint isPrintTable c.toNat = true := by
    unfold IsPrint
    rw [if_pos (by omega), if_pos ⟨h1, h2⟩]
  unfold appendEscapedRune
  dsimp only
  rw [if_neg (by omega), if_pos hp]

theorem join_escaped_plain (isPrintTable : Nat → Bool) (l : List Char)
    (hl : ∀ c ∈ l, 0x20 ≤ c.toNat ∧ c.toNat ≤ 0x7E ∧ c.toNat ≠ 34 ∧ c.toNat ≠ 92) :
    String.join (l.map (appendEscapedRune isPrintTable)) = String.mk l := by
  induction l with
  | nil => rfl
  | cons c rest ih =>
    rw [List.map_cons, join_cons, ih (fun d hd => hl d (List.mem_cons_of_mem c hd)),
      appendEscapedRune_plain isPrintTable c (hl c (List.mem_cons_self c rest))]
    rfl

theorem Quote_plainText (isPrintTable : Nat → Bool) (s : String) (hs : plainText s = true) :
    Quote isPrintTable s = dquote ++ s ++ dquote := by
  unfold Quote
  rw [join_escaped_plain isPrintTable s.toList]
  · rfl
  · intro c hc
    have := List.all_eq_true.mp hs c hc
    simpa using this

theorem Value_WithTransactionWaitForSync (parent : Context) (value : List Bool) :
    (WithTransactionWaitForSync parent value).Value (GoValue.string keyTransactionWaitForSync)
      = GoValue.bool (value.headD true) := by
  cases value <;> simp [WithTransactionWaitForSync, Ctx.withValue]

theorem applyContextSettings_of_bool (tx : transaction) (c : Ctx) (v : Bool)
    (hv : c.Value (GoValue.string keyTransactionWaitForSync) = GoValue.bool v) :
    (applyContextSettings tx (some c)).WaitForSync = v ∧
    (applyContextSettings tx (some c)).Collections.AllowImplicit = v := by
  simp only [applyContextSettings, hv]
  split <;> exact ⟨rfl, rfl⟩

/-- On a handle whose `Params` is allocated, either variant returns nil,
leaves `Params` allocated and merges the supplied parameters. -/
theorem AddCall_run_allocated (isPrintTable : Nat → Bool) (tx : transaction) (t : ParamTable)
    (ht : tx.Params = some t) (c : AddCall) :
    (c.run isPrintTable tx).2 = Outcome.returned none ∧
    (∃ t1, (c.run isPrintTable tx).1.Params = some t1) ∧
    ∀ k, mapLookup (c.run isPrintTable tx).1.Params k =
      (match mapLookup c.params k with
       | some v => some v
       | none => mapLookup tx.Params k) := by
  cases c with
  | aql query params =>
    refine ⟨(AddAQL_allocated isPrintTable tx t ht query params).1, ?_,
      (AddAQL_allocated isPrintTable tx t ht query params).2⟩
    simp only [AddCall.run, AddAQL, ht, mergeEntries_some]
    exact ⟨_, rfl⟩
  | js code params =>
    refine ⟨(AddJSQuery_allocated tx t ht code params).1, ?_,
      (AddJSQuery_allocated tx t ht code params).2⟩
    simp only [AddCall.run, AddJSQuery, ht, mergeEntries_some]
    exact ⟨_, rfl⟩

/-- On a handle whose `Params` is allocated, the value of the later call wins
for a key that both calls supply, and a key that the later call does not
supply keeps the value it had before the later call. -/
theorem later_value_wins_when_allocated (isPrintTable : Nat → Bool) (tx : transaction)
    (t : ParamTable) (ht : tx.Params = some t) (c1 c2 : AddCall) (k : String)
    (v1 v2 : GoValue) (_h1 : mapLookup c1.params k = some v1)
    (h2 : mapLookup c2.params k = some v2) :
    mapLookup (c2.run isPrintTable (c1.run isPrintTable tx).1).1.Params k = some v2 ∧
    ∀ k1, mapLookup c2.params k1 = none →
      mapLookup (c2.run isPrintTable (c1.run isPrintTable tx).1).1.Params k1
        = mapLookup (c1.run isPrintTable tx).1.Params k1 := by
  obtain ⟨_, ⟨t1, ht1⟩, _⟩ := AddCall_run_allocated isPrintTable tx t ht c1
  obtain ⟨_, _, hlook⟩ := AddCall_run_allocated isPrintTable _ t1 ht1 c2
  refine ⟨?_, fun k1 hk1 => ?_⟩
  · rw [hlook k, h2]
  · rw [hlook k1, hk1]

theorem foldl_append_singleton (l init : List String) :
    l.foldl (fun paramKeys k => paramKeys ++ [k]) init = init ++ l := by
  induction l generalizing init with
  | nil => simp
  | cons k rest ih => simp [List.foldl_cons, ih]

/-- The loop of lines 100-103 collects the keys in the order of the range. -/
theorem collectParamKeys_eq (order : Nat) (params : GoMap) :
    collectParamKeys order params = rangeKeys order params := by
  simp [collectParamKeys, foldl_append_singleton]

/-- Whatever order the range takes, it visits every key once. -/
theorem rangeKeys_perm (order : Nat) (m : GoMap) : (rangeKeys order m).Perm (mapKeys m) := by
  unfold rangeKeys
  by_cases h : order < (List.permutations' (mapKeys m)).length
  · rw [List.getD_eq_getElem _ _ h]
    exact List.mem_permutations'.mp (List.getElem_mem h)
  · rw [List.getD_eq_default _ _ (Nat.le_of_not_lt h)]

/-- Every arrangement of the keys is the order of some run of the range. -/
theorem rangeKeys_any_arrangement (m : GoMap) (names : List String)
    (hnames : names.Perm (mapKeys m)) : ∃ order, rangeKeys order m = names := by
  obtain ⟨n, hn, hget⟩ := List.getElem_of_mem (List.mem_permutations'.mpr hnames)
  exact ⟨n, by unfold rangeKeys; rw [List.getD_eq_getElem _ _ hn, hget]⟩

theorem collectParamKeys_perm (order : Nat) (params : GoMap) :
    RangeOrder params (collectParamKeys order params) := by
  unfold RangeOrder
  rw [collectParamKeys_eq]
  exact rangeKeys_perm order params

/-! ### `Execute`, step by step -/

theorem Execute_of_NewRequest_error {Req Resp Dest : Type} (conn : Connection Req Resp Dest)
    (tx : transaction) (order : Nat) (ctx : Context) (result : Dest) (err : String)
    (h1 : conn.NewRequest "POST" (tx.relPath conn) = Except.error err) :
    Execute conn tx order ctx result =
      ⟨tx, result, [Step.newRequest "POST" (tx.relPath conn)],
        Outcome.returned (some (conn.WithStack err))⟩ := by
  simp only [transaction.relPath] at h1
  simp [Execute, transaction.relPath, h1]

theorem Execute_of_SetBody_error {Req Resp Dest : Type} (conn : Connection Req Resp Dest)
    (tx : transaction) (order : Nat) (ctx : Context) (result : Dest)
    (req : Req) (err : String)
    (h1 : conn.NewRequest "POST" (tx.relPath conn) = Except.ok req)
    (h2 : conn.SetBody req (requestBody tx order ctx) = Except.error err) :
    Execute conn tx order ctx result =
      ⟨tx, result,
        [Step.newRequest "POST" (tx.relPath conn), Step.setBody (requestBody tx order ctx)],
        Outcome.returned (some (conn.WithStack err))⟩ := by
  simp only [transaction.relPath, requestBody] at h1 h2
  simp [Execute, transaction.relPath, requestBody, h1, h2]

theorem Execute_of_Do_error {Req Resp Dest : Type} (conn : Connection Req Resp Dest)
    (tx : transaction) (order : Nat) (ctx : Context) (result : Dest)
    (req req1 : Req) (err : String)
    (h1 : conn.NewRequest "POST" (tx.relPath conn) = Except.ok req)
    (h2 : conn.SetBody req (requestBody tx order ctx) = Except.ok req1)
    (h3 : conn.Do ctx req1 = Except.error err) :
    Execute conn tx order ctx result =
      ⟨tx, result,
        [Step.newRequest "POST" (tx.relPath conn), Step.setBody (requestBody tx order ctx),
          Step.doRequest],
        Outcome.returned (some (conn.WithStack err))⟩ := by
  simp only [transaction.relPath, requestBody] at h1 h2
  simp [Execute, transaction.relPath, requestBody, h1, h2, h3]

theorem Execute_of_CheckStatus_error {Req Resp Dest : Type} (conn : Connection Req Resp Dest)
    (tx : transaction) (order : Nat) (ctx : Context) (result : Dest)
    (req req1 : Req) (resp : Resp) (err : String)
    (h1 : conn.NewRequest "POST" (tx.relPath conn) = Except.ok req)
    (h2 : conn.SetBody req (requestBody tx order ctx) = Except.ok req1)
    (h3 : conn.Do ctx req1 = Except.ok resp)
    (h4 : conn.CheckStatus resp 201 = some err) :
    Execute conn tx order ctx result =
      ⟨tx, result,
        [Step.newRequest "POST" (tx.relPath conn), Step.setBody (requestBody tx order ctx),
          Step.doRequest, Step.checkStatus 201],
        Outcome.returned (some (conn.WithStack err))⟩ := by
  simp only [transaction.relPath, requestBody] at h1 h2
  simp [Execute, transaction.relPath, requestBody, h1, h2, h3, h4]

theorem Execute_of_ParseBody_error {Req Resp Dest : Type} (conn : Connection Req Resp Dest)
    (tx : transaction) (order : Nat) (ctx : Context) (result : Dest)
    (req req1 : Req) (resp : Resp) (err : String)
    (h1 : conn.NewRequest "POST" (tx.relPath conn) = Except.ok req)
    (h2 : conn.SetBody req (requestBody tx order ctx) = Except.ok req1)
    (h3 : conn.Do ctx req1 = Except.ok resp)
    (h4 : conn.CheckStatus resp 201 = none)
    (h5 : conn.ParseBody resp "" = Except.error err) :
    Execute conn tx order ctx result =
      ⟨tx, result,
        [Step.newRequest "POST" (tx.relPath conn), Step.setBody (requestBody tx order ctx),
          Step.doRequest, Step.checkStatus 201, Step.parseBody ""],
        Outcome.returned (some (conn.WithStack err))⟩ := by
  simp only [transaction.relPath, requestBody] at h1 h2
  simp [Execute, transaction.relPath, requestBody, h1, h2, h3, h4, h5]

theorem Execute_of_nil_Result {Req Resp Dest : Type} (conn : Connection Req Resp Dest)
    (tx : transaction) (order : Nat) (ctx : Context) (result : Dest)
    (req req1 : Req) (resp : Resp)
    (h1 : conn.NewRequest "POST" (tx.relPath conn) = Except.ok req)
    (h2 : conn.SetBody req (requestBody tx order ctx) = Except.ok req1)
    (h3 : conn.Do ctx req1 = Except.ok resp)
    (h4 : conn.CheckStatus resp 201 = none)
    (h5 : conn.ParseBody resp "" = Except.ok { Result := none }) :
    Execute conn tx order ctx result =
      ⟨tx, result,
        [Step.newRequest "POST" (tx.relPath conn), Step.setBody (requestBody tx order ctx),
          Step.doRequest, Step.checkStatus 201, Step.parseBody ""],
        Outcome.panicked "runtime error: invalid memory address or nil pointer dereference"⟩ := by
  simp only [transaction.relPath, requestBody] at h1 h2
  simp [Execute, transaction.relPath, requestBody, h1, h2, h3, h4, h5]

theorem Execute_of_Unmarshal {Req Resp Dest : Type} (conn : Connection Req Resp Dest)
    (tx : transaction) (order : Nat) (ctx : Context) (result : Dest)
    (req req1 : Req) (resp : Resp) (raw : RawObject)
    (h1 : conn.NewRequest "POST" (tx.relPath conn) = Except.ok req)
    (h2 : conn.SetBody req (requestBody tx order ctx) = Except.ok req1)
    (h3 : conn.Do ctx req1 = Except.ok resp)
    (h4 : conn.CheckStatus resp 201 = none)
    (h5 : conn.ParseBody resp "" = Except.ok { Result := some raw }) :
    Execute conn tx order ctx result =
      ⟨tx, (conn.Unmarshal raw result).1,
        [Step.newRequest "POST" (tx.relPath conn), Step.setBody (requestBody tx order ctx),
          Step.doRequest, Step.checkStatus 201, Step.parseBody "", Step.unmarshal raw],
        Outcome.returned ((conn.Unmarshal raw result).2.map conn.WithStack)⟩ := by
  simp only [transaction.relPath, requestBody] at h1 h2
  simp only [Execute, transaction.relPath, h1, h2, h3, h4, h5]
  rcases hu : conn.Unmarshal raw result with ⟨d, _ | e⟩ <;> simp [requestBody]

theorem applyContextSettings_Read_Write (tx : transaction) (ctx : Context) :
    (applyContextSettings tx ctx).Collections.Read = tx.Collections.Read ∧
    (applyContextSettings tx ctx).Collections.Write = tx.Collections.Write := by
  cases ctx with
  | none => exact ⟨rfl, rfl⟩
  | some c =>
    simp only [applyContextSettings]
    split <;> split <;> split <;> exact ⟨rfl, rfl⟩

theorem AddCall_run_Collections (isPrintTable : Nat → Bool) (tx : transaction) (c : AddCall) :
    (c.run isPrintTable tx).1.Collections = tx.Collections := by
  cases c with
  | aql query params =>
    simp only [AddCall.run, AddAQL]
    split <;> rfl
  | js code params =>
    simp only [AddCall.run, AddJSQuery]
    split <;> rfl

theorem HandleOp_run_Read_Write (isPrintTable : Nat → Bool) (tx : transaction) (op : HandleOp) :
    (op.run isPrintTable tx).Collections.Read = tx.Collections.Read ∧
    (op.run isPrintTable tx).Collections.Write = tx.Collections.Write := by
  cases op with
  | add call =>
    simp only [HandleOp.run, AddCall_run_Collections]
    exact ⟨trivial, trivial⟩
  | applyContext ctx => exact applyContextSettings_Read_Write tx ctx

theorem runOps_Read_Write (isPrintTable : Nat → Bool) (tx : transaction) (ops : List HandleOp) :
    (runOps isPrintTable tx ops).Collections.Read = tx.Collections.Read ∧
    (runOps isPrintTable tx ops).Collections.Write = tx.Collections.Write := by
  induction ops generalizing tx with
  | nil => exact ⟨rfl, rfl⟩
  | cons op rest ih =>
    have hstep := ih (op.run isPrintTable tx)
    have hop := HandleOp_run_Read_Write isPrintTable tx op
    simp only [runOps, List.foldl_cons] at hstep ⊢
    exact ⟨hstep.1.trans hop.1, hstep.2.trans hop.2⟩

/-! ## The claims -/

/-- C1 (the code does not do this): on a fresh handle, applying a context that
carries only the allow-implicit setting, attached by
`WithTransactionAllowImplicit` with the value `true` or with no value, leaves
`Collections.AllowImplicit` false: `applyContextSettings` never reads the
allow-implicit key, its first lookup uses the wait-for-sync key. -/
theorem c1_allow_implicit_key_not_read :
    (applyContextSettings (newTransaction demoDb [] [])
        (some (WithTransactionAllowImplicit none [true]))).Collections.AllowImplicit = false ∧
    (applyContextSettings (newTransaction demoDb [] [])
        (some (WithTransactionAllowImplicit none []))).Collections.AllowImplicit = false := by
  decide

/-- C2 (the code does not do this): on a handle fresh from `newTransaction`,
whose `Params` is the nil map, `AddAQL` and `AddJSQuery` with a non-empty
parameter mapping do not return: they panic on the assignment to an entry of
the nil map, and the supplied key is not in `Params` afterwards. -/
theorem c2_add_with_params_on_fresh_handle_panics :
    (AddAQL (fun _ => false) (newTransaction demoDb [] []) "RETURN @x"
        (singleParam "x" (GoValue.int 1))).2
      = Outcome.panicked "assignment to entry in nil map" ∧
    (AddJSQuery (newTransaction demoDb [] []) "return x;"
        (singleParam "x" (GoValue.int 1))).2
      = Outcome.panicked "assignment to entry in nil map" ∧
    mapLookup (AddAQL (fun _ => false) (newTransaction demoDb [] []) "RETURN @x"
        (singleParam "x" (GoValue.int 1))).1.Params "x" = none ∧
    mapLookup (AddJSQuery (newTransaction demoDb [] []) "return x;"
        (singleParam "x" (GoValue.int 1))).1.Params "x" = none := by
  decide

/-- C3, as claimed, fails: after `Execute` on a handle with the code body
`return 1;` and no parameters, the handle's code body is not the wrapped
string, and a second `Execute` on the same handle does not send a doubly
wrapped action. -/
theorem c3_counterexample :
    ¬ ((Execute (echoConn []) (AddJSQuery (newTransaction demoDb [] []) "return 1;" none).1
          0 none []).handle.Action = "function()\x7b return 1; \x7d") ∧
    ¬ ((sentBodies (Execute (echoConn [])
          (Execute (echoConn []) (AddJSQuery (newTransaction demoDb [] []) "return 1;" none).1
            0 none []).handle 0 none []).steps).map (fun b => b.Action)
        = ["function()\x7b function()\x7b return 1; \x7d \x7d"]) := by
  decide

/-- C3, amended: `Execute` runs on a copy of the handle and leaves the
caller's handle as it was; the wrapped string `function(<names>){ <body> }`
is the action of the body handed to the transport only, and a second
`Execute` on the same handle again sends the body wrapped once, whatever
order the two ranges over the parameters take. -/
theorem c3_execute_leaves_handle {Req Resp Dest : Type} (conn : Connection Req Resp Dest)
    (tx : transaction) (order1 order2 : Nat) (ctx1 ctx2 : Context) (d1 d2 : Dest) :
    (Execute conn tx order1 ctx1 d1).handle = tx ∧
    (∀ b ∈ sentBodies (Execute conn tx order1 ctx1 d1).steps,
        b.Action = "function(" ++ String.intercalate "," (collectParamKeys order1 tx.Params)
          ++ ")\x7b " ++ tx.Action ++ " \x7d") ∧
    (∀ b ∈ sentBodies
        (Execute conn (Execute conn tx order1 ctx1 d1).handle order2 ctx2 d2).steps,
        b.Action = "function(" ++ String.intercalate "," (collectParamKeys order2 tx.Params)
          ++ ")\x7b " ++ tx.Action ++ " \x7d") := by
  refine ⟨Execute_handle conn tx order1 ctx1 d1, ?_, ?_⟩
  · intro b hb
    exact sentBodies_Action conn tx order1 ctx1 d1 b hb
  · intro b hb
    rw [Execute_handle] at hb
    exact sentBodies_Action conn tx order2 ctx2 d2 b hb

/-- C3, amended, at a concrete handle: the transport gets the body wrapped
once, both times, and the handle keeps `return 1;`. -/
theorem c3_execute_leaves_handle_witness :
    (Execute (echoConn []) (AddJSQuery (newTransaction demoDb [] []) "return 1;" none).1
        0 none []).handle.Action = "return 1;" ∧
    (sentBodies (Execute (echoConn [])
        (Execute (echoConn []) (AddJSQuery (newTransaction demoDb [] []) "return 1;" none).1
          0 none []).handle 0 none []).steps).map (fun b => b.Action)
      = ["function()\x7b return 1; \x7d"] ∧
    ∀ b ∈ sentBodies (Execute (echoConn [])
        (Execute (echoConn []) (AddJSQuery (newTransaction demoDb [] []) "return 1;" none).1
          0 none []).handle 0 none []).steps,
      b.Action = "function(" ++ String.intercalate "," [] ++ ")\x7b " ++ "return 1;" ++ " \x7d" :=
  ⟨by decide, by decide,
    (c3_execute_leaves_handle (echoConn [])
      (AddJSQuery (newTransaction demoDb [] []) "return 1;" none).1 0 0 none none [] []).2.2⟩

/-- C4: after any sequence of `AddAQL` and `AddJSQuery` calls on a handle,
whatever order the range over `Params` takes, the names that `Execute`
collects have no duplicates and are exactly the keys of `Params` at that
time, and the action of the body that `Execute` hands to the transport is
`function(` ++ names joined by `,` ++ `){ ` ++ code body ++ ` }`; when the
request can be built, this is the one body handed over. -/
theorem c4_action_is_wrapped_body {Req Resp Dest : Type} (conn : Connection Req Resp Dest)
    (isPrintTable : Nat → Bool) (tx0 : transaction) (calls : List AddCall) (order : Nat)
    (ctx : Context) (result : Dest) :
    (collectParamKeys order (afterCalls isPrintTable tx0 calls).Params).Nodup ∧
    (∀ k, k ∈ collectParamKeys order (afterCalls isPrintTable tx0 calls).Params ↔
      (mapLookup (afterCalls isPrintTable tx0 calls).Params k).isSome = true) ∧
    RangeOrder (afterCalls isPrintTable tx0 calls).Params
      (collectParamKeys order (afterCalls isPrintTable tx0 calls).Params) ∧
    (∀ b ∈ sentBodies (Execute conn (afterCalls isPrintTable tx0 calls) order ctx result).steps,
      b.Action = "function("
        ++ String.intercalate "," (collectParamKeys order (afterCalls isPrintTable tx0 calls).Params)
        ++ ")\x7b " ++ (afterCalls isPrintTable tx0 calls).Action ++ " \x7d") ∧
    (∀ req, conn.NewRequest "POST" ((afterCalls isPrintTable tx0 calls).relPath conn)
        = Except.ok req →
      (sentBodies (Execute conn (afterCalls isPrintTable tx0 calls) order ctx result).steps).map
          (fun b => b.Action)
        = ["function("
            ++ String.intercalate ","
              (collectParamKeys order (afterCalls isPrintTable tx0 calls).Params)
            ++ ")\x7b " ++ (afterCalls isPrintTable tx0 calls).Action ++ " \x7d"]) := by
  have hperm := collectParamKeys_perm order (afterCalls isPrintTable tx0 calls).Params
  refine ⟨?_, fun k => ?_, hperm, fun b hb => ?_, fun req hreq => ?_⟩
  · exact (List.Perm.nodup_iff hperm).mpr (mapKeys_nodup _)
  · rw [List.Perm.mem_iff hperm, mem_mapKeys]
  · exact sentBodies_Action conn _ order ctx result b hb
  · rw [sentBodies_Execute, hreq]
    simp only [List.map_cons, List.map_nil, applyContextSettings_Action]
    rfl

/-- C4 on a handle fresh from `newTransaction` after a query and raw code
without parameters: the action sent is
`function(){ db.query("RETURN 1");return 2; }`; and on a handle with the
parameters `a` and `b`: the action sent lists them in the order of the
range, `function(b,a){ ... }` or `function(a,b){ ... }`. -/
theorem c4_action_is_wrapped_body_witness :
    (sentBodies (Execute (echoConn [])
        (afterCalls (fun _ => false) (newTransaction demoDb [] [])
          [AddCall.aql "RETURN 1" none, AddCall.js "return 2;" none]) 0 none []).steps).map
        (fun b => b.Action)
      = ["function()\x7b db.query(\x22RETURN 1\x22);return 2; \x7d"] ∧
    (sentBodies (Execute (echoConn [])
        (afterCalls (fun _ => false) (withEmptyParams (newTransaction demoDb [] [])) demoCalls)
        0 none []).steps).map (fun b => b.Action)
      = ["function(b,a)\x7b db.query(\x22RETURN @a\x22);return b; \x7d"] ∧
    (sentBodies (Execute (echoConn [])
        (afterCalls (fun _ => false) (withEmptyParams (newTransaction demoDb [] [])) demoCalls)
        1 none []).steps).map (fun b => b.Action)
      = ["function(a,b)\x7b db.query(\x22RETURN @a\x22);return b; \x7d"] ∧
    (collectParamKeys 1
        (afterCalls (fun _ => false) (withEmptyParams (newTransaction demoDb [] []))
          demoCalls).Params).Nodup ∧
    ∀ b ∈ sentBodies (Execute (echoConn [])
        (afterCalls (fun _ => false) (newTransaction demoDb [] [])
          [AddCall.aql "RETURN 1" none, AddCall.js "return 2;" none]) 0 none []).steps,
      b.Action = "function("
        ++ String.intercalate ","
          (collectParamKeys 0
            (afterCalls (fun _ => false) (newTransaction demoDb [] [])
              [AddCall.aql "RETURN 1" none, AddCall.js "return 2;" none]).Params)
        ++ ")\x7b "
        ++ (afterCalls (fun _ => false) (newTransaction demoDb [] [])
              [AddCall.aql "RETURN 1" none, AddCall.js "return 2;" none]).Action
        ++ " \x7d" :=
  ⟨by decide, by decide, by decide,
    (c4_action_is_wrapped_body (echoConn []) (fun _ => false)
      (withEmptyParams (newTransaction demoDb [] [])) demoCalls 1 none []).1,
    (c4_action_is_wrapped_body (echoConn []) (fun _ => false) (newTransaction demoDb [] [])
      [AddCall.aql "RETURN 1" none, AddCall.js "return 2;" none] 0 none []).2.2.2.1⟩

/-- C5 (the code does not do this): on a handle fresh from `newTransaction`,
a call with `k ↦ 1` and then a call with `k ↦ 2` both panic on the nil map,
and `Params` has no entry for `k` afterwards. -/
theorem c5_overwrite_on_fresh_handle_panics :
    (AddAQL (fun _ => false) (newTransaction demoDb [] []) "RETURN @k"
        (singleParam "k" (GoValue.int 1))).2
      = Outcome.panicked "assignment to entry in nil map" ∧
    (AddJSQuery
        (AddAQL (fun _ => false) (newTransaction demoDb [] []) "RETURN @k"
          (singleParam "k" (GoValue.int 1))).1
        "return k;" (singleParam "k" (GoValue.int 2))).2
      = Outcome.panicked "assignment to entry in nil map" ∧
    mapLookup (AddJSQuery
        (AddAQL (fun _ => false) (newTransaction demoDb [] []) "RETURN @k"
          (singleParam "k" (GoValue.int 1))).1
        "return k;" (singleParam "k" (GoValue.int 2))).1.Params "k" = none := by
  decide

/-- C6: calling `AddJSQuery` with the raw fragments `f1`, ..., `fn` in turn
leaves the code body equal to the body before followed by `f1 ++ ... ++ fn`,
whatever parameters come with the fragments; each single call appends its
fragment verbatim, so the body before is a prefix of the body after. -/
theorem c6_raw_fragments_accumulate (tx : transaction) (calls : List (String × GoMap)) :
    (addJSQueries tx calls).Action = tx.Action ++ String.join (calls.map Prod.fst) ∧
    (∀ (js : String) (params : GoMap),
      (AddJSQuery tx js params).1.Action = tx.Action ++ js ∧
      tx.Action.data <+: (AddJSQuery tx js params).1.Action.data) := by
  constructor
  · induction calls generalizing tx with
    | nil => simp [addJSQueries, String.join]
    | cons c rest ih =>
      have hstep := ih (AddJSQuery tx c.1 c.2).1
      simp only [addJSQueries, List.foldl_cons] at hstep ⊢
      rw [hstep, AddJSQuery_Action, List.map_cons, join_cons, String.append_assoc]
  · intro js params
    refine ⟨AddJSQuery_Action tx js params, ?_⟩
    rw [AddJSQuery_Action, String.data_append]
    exact List.prefix_append _ _

/-- C7, as claimed, fails: on a fresh handle `AddAQL` with the fragment
`RETURN 1` does not leave the code body `db.query(RETURN 1);`. -/
theorem c7_counterexample :
    ¬ ((AddAQL (fun _ => false) (newTransaction demoDb [] []) "RETURN 1" none).1.Action
        = "" ++ "db.query(" ++ "RETURN 1" ++ ");") := by
  decide

/-- C7, amended: `AddAQL` leaves the code body equal to the body before
followed by `db.query(` ++ Q ++ `);`, where Q is the fragment as the verb
`%q` prints it, a double-quoted string literal with escapes; for a fragment
of printable ASCII characters without double quote and backslash, Q is the
fragment between two double quotes. -/
theorem c7_query_is_quoted (isPrintTable : Nat → Bool) (tx : transaction) (query : String)
    (params : GoMap) :
    (AddAQL isPrintTable tx query params).1.Action
      = tx.Action ++ "db.query(" ++ Quote isPrintTable query ++ ");" ∧
    (plainText query = true →
      (AddAQL isPrintTable tx query params).1.Action
        = tx.Action ++ "db.query(" ++ "\x22" ++ query ++ "\x22" ++ ");") := by
  have hq : (AddAQL isPrintTable tx query params).1.Action
      = tx.Action ++ "db.query(" ++ Quote isPrintTable query ++ ");" := by
    rw [AddAQL_Action]
    simp only [String.append_assoc]
  refine ⟨hq, fun hplain => ?_⟩
  rw [hq, Quote_plainText isPrintTable query hplain]
  simp only [String.append_assoc]
  rfl

/-- C7, amended, at the fragment `RETURN 1` on a fresh handle: the code body
is `db.query("RETURN 1");`. -/
theorem c7_query_is_quoted_witness :
    plainText "RETURN 1" = true ∧
    (AddAQL (fun _ => false) (newTransaction demoDb [] []) "RETURN 1" none).1.Action
      = (newTransaction demoDb [] []).Action ++ "db.query(" ++ "\x22" ++ "RETURN 1" ++ "\x22"
        ++ ");" :=
  ⟨by decide,
    (c7_query_is_quoted (fun _ => false) (newTransaction demoDb [] []) "RETURN 1" none).2
      (by decide)⟩

/-- C8: when no setting key holds a value of its expected type in the context
(nil context, no key set, or wrongly typed values), `applyContextSettings`
leaves the handle as it was, every field; on a fresh handle `WaitForSync` and
`Collections.AllowImplicit` are false and `LockTimeout` is 0 afterwards. -/
theorem c8_no_typed_setting_no_change (tx : transaction) (ctx : Context)
    (h : noTypedSetting ctx = true) (db : database) (read write : List String) :
    applyContextSettings tx ctx = tx ∧
    (applyContextSettings (newTransaction db read write) ctx).WaitForSync = false ∧
    (applyContextSettings (newTransaction db read write) ctx).Collections.AllowImplicit = false ∧
    (applyContextSettings (newTransaction db read write) ctx).LockTimeout = 0 := by
  have key : ∀ t : transaction, applyContextSettings t ctx = t := by
    intro t
    cases ctx with
    | none => rfl
    | some c =>
      simp only [noTypedSetting, Bool.and_eq_true, Bool.not_eq_true'] at h
      obtain ⟨⟨hw, _⟩, hl⟩ := h
      simp only [applyContextSettings]
      generalize c.Value (GoValue.string keyTransactionWaitForSync) = w at hw ⊢
      generalize c.Value (GoValue.string keyTransactionLockTimeout) = l at hl ⊢
      cases w <;> cases l <;> simp_all [GoValue.isBool, GoValue.isInt]
  refine ⟨key tx, ?_, ?_, ?_⟩ <;> rw [key] <;> rfl

/-- C8 at a context with an integer under the wait-for-sync key and a boolean
under the lock-timeout key, and at the nil context. -/
theorem c8_no_typed_setting_no_change_witness :
    noTypedSetting (some wrongTypedCtx) = true ∧
    noTypedSetting none = true ∧
    applyContextSettings demoHandle (some wrongTypedCtx) = demoHandle ∧
    (applyContextSettings (newTransaction demoDb ["a"] ["b"]) none).LockTimeout = 0 :=
  ⟨by decide, by decide,
    (c8_no_typed_setting_no_change demoHandle (some wrongTypedCtx) (by decide) demoDb [] []).1,
    (c8_no_typed_setting_no_change demoHandle none (by decide) demoDb ["a"] ["b"]).2.2.2⟩

/-- C9: applying the context from `WithTransactionWaitForSync(parent)` sets
`WaitForSync` to true, applying the one from
`WithTransactionWaitForSync(parent, v)` sets it to `v`; so when the setter
was used with no value or with true, every body that `Execute` hands to the
transport has `WaitForSync` true. -/
theorem c9_wait_for_sync_setter {Req Resp Dest : Type} (conn : Connection Req Resp Dest)
    (parent : Context) (tx : transaction) (order : Nat) (result : Dest) :
    (applyContextSettings tx (some (WithTransactionWaitForSync parent []))).WaitForSync = true ∧
    (∀ (v : Bool) (rest : List Bool),
      (applyContextSettings tx
        (some (WithTransactionWaitForSync parent (v :: rest)))).WaitForSync = v) ∧
    (∀ value : List Bool, value = [] ∨ value.head? = some true →
      ∀ b ∈ sentBodies (Execute conn tx order
          (some (WithTransactionWaitForSync parent value)) result).steps,
        b.WaitForSync = true) := by
  refine ⟨?_, ?_, ?_⟩
  · exact (applyContextSettings_of_bool tx _ _
      (Value_WithTransactionWaitForSync parent [])).1
  · intro v rest
    exact (applyContextSettings_of_bool tx _ _
      (Value_WithTransactionWaitForSync parent (v :: rest))).1
  · intro value hvalue b hb
    have htrue : value.headD true = true := by
      rcases hvalue with h | h
      · rw [h]; rfl
      · cases value with
        | nil => rfl
        | cons v rest => simpa using h
    rw [sentBodies_Execute] at hb
    split at hb
    · simp at hb
    · simp only [List.mem_singleton] at hb
      rw [hb, ← htrue]
      exact (applyContextSettings_of_bool _ _ _
        (Value_WithTransactionWaitForSync parent value)).1

/-- C9 on a handle with parameters and a transport that accepts the request:
the one body sent has `WaitForSync` true. -/
theorem c9_wait_for_sync_setter_witness :
    (sentBodies (Execute (echoConn []) demoHandle 0
        (some (WithTransactionWaitForSync none [])) []).steps).map (fun b => b.WaitForSync)
      = [true] ∧
    ∀ b ∈ sentBodies (Execute (echoConn []) demoHandle 0
        (some (WithTransactionWaitForSync none [])) []).steps,
      b.WaitForSync = true :=
  ⟨by decide,
    (c9_wait_for_sync_setter (echoConn []) none demoHandle 0 []).2.2 []
      (Or.inl rfl)⟩

/-- C10: applying the context from `WithTransactionLockTimeout(parent, n)`
sets `LockTimeout` to `n` and leaves `WaitForSync` and
`Collections.AllowImplicit` as applying `parent` alone leaves them. -/
theorem c10_lock_timeout_setter (parent : Context) (tx : transaction) (n : Int) :
    (applyContextSettings tx (some (WithTransactionLockTimeout parent n))).LockTimeout = n ∧
    (applyContextSettings tx (some (WithTransactionLockTimeout parent n))).WaitForSync
      = (applyContextSettings tx parent).WaitForSync ∧
    (applyContextSettings tx (some (WithTransactionLockTimeout parent n))).Collections.AllowImplicit
      = (applyContextSettings tx parent).Collections.AllowImplicit := by
  have hne : GoValue.string keyTransactionLockTimeout
      ≠ GoValue.string keyTransactionWaitForSync := by decide
  have hw : (WithTransactionLockTimeout parent n).Value
      (GoValue.string keyTransactionWaitForSync)
      = (contextOrBackground parent).Value (GoValue.string keyTransactionWaitForSync) := by
    simp only [WithTransactionLockTimeout, Ctx.withValue, if_neg hne]
  have hl : (WithTransactionLockTimeout parent n).Value
      (GoValue.string keyTransactionLockTimeout) = GoValue.int n := by
    simp only [WithTransactionLockTimeout, Ctx.withValue, if_true]
  cases parent with
  | none =>
    simp only [applyContextSettings, hw, hl]
    simp [contextOrBackground, Ctx.background]
  | some c =>
    simp only [applyContextSettings, hw, hl, contextOrBackground]
    generalize c.Value (GoValue.string keyTransactionWaitForSync) = w
    generalize c.Value (GoValue.string keyTransactionLockTimeout) = l
    cases w <;> cases l <;> simp

/-- C11: for a response that `Execute` gets from the transport, where
`status` is the status that the transport's check compares with the expected
code: when the status is 201, the body parses to a result and the
destination decodes it, `Execute` returns no error and the destination holds
the decoded payload; when the status is not 201, `Execute` returns an error,
makes neither the parsing nor the decoding call, and the destination is as it
was. -/
theorem c11_status_decides_decoding {Req Resp Dest : Type} (conn : Connection Req Resp Dest)
    (status : Resp → Int)
    (hstatus : ∀ r code, conn.CheckStatus r code = none ↔ status r = code)
    (tx : transaction) (order : Nat) (ctx : Context) (result : Dest)
    (req req1 : Req) (resp : Resp)
    (h1 : conn.NewRequest "POST" (tx.relPath conn) = Except.ok req)
    (h2 : conn.SetBody req (requestBody tx order ctx) = Except.ok req1)
    (h3 : conn.Do ctx req1 = Except.ok resp) :
    (status resp = 201 →
      ∀ (raw : RawObject) (decoded : Dest),
        conn.ParseBody resp "" = Except.ok { Result := some raw } →
        conn.Unmarshal raw result = (decoded, none) →
        (Execute conn tx order ctx result).outcome = Outcome.returned none ∧
        (Execute conn tx order ctx result).dest = decoded) ∧
    (status resp ≠ 201 →
      (∃ err, (Execute conn tx order ctx result).outcome = Outcome.returned (some err)) ∧
      (Execute conn tx order ctx result).dest = result ∧
      Step.parseBody "" ∉ (Execute conn tx order ctx result).steps ∧
      ∀ raw, Step.unmarshal raw ∉ (Execute conn tx order ctx result).steps) := by
  constructor
  · intro hs raw decoded h5 h6
    have h4 : conn.CheckStatus resp 201 = none := (hstatus resp 201).mpr hs
    rw [Execute_of_Unmarshal conn tx order ctx result req req1 resp raw h1 h2 h3 h4 h5, h6]
    exact ⟨rfl, rfl⟩
  · intro hs
    have hne : conn.CheckStatus resp 201 ≠ none := fun h => hs ((hstatus resp 201).mp h)
    obtain ⟨err, h4⟩ := Option.ne_none_iff_exists'.mp hne
    rw [Execute_of_CheckStatus_error conn tx order ctx result req req1 resp err h1 h2 h3 h4]
    refine ⟨⟨_, rfl⟩, rfl, ?_, ?_⟩
    · simp
    · intro raw
      simp

/-- C11 at a transport that answers 201 with the result `[1, 2, 3]`, and at
one that answers 404: the first run returns nil with the destination
`[1, 2, 3]`, the second returns an error and leaves the destination `[]`. -/
theorem c11_status_decides_decoding_witness :
    ((Execute (statusConn 201 (some [1, 2, 3])) demoHandle 1 none []).outcome
        = Outcome.returned none ∧
      (Execute (statusConn 201 (some [1, 2, 3])) demoHandle 1 none []).dest
        = [1, 2, 3]) ∧
    ((∃ err, (Execute (statusConn 404 (some [1, 2, 3])) demoHandle 1 none []).outcome
        = Outcome.returned (some err)) ∧
      (Execute (statusConn 404 (some [1, 2, 3])) demoHandle 1 none []).dest = [] ∧
      Step.parseBody "" ∉
        (Execute (statusConn 404 (some [1, 2, 3])) demoHandle 1 none []).steps ∧
      ∀ raw, Step.unmarshal raw ∉
        (Execute (statusConn 404 (some [1, 2, 3])) demoHandle 1 none []).steps) :=
  ⟨(c11_status_decides_decoding (statusConn 201 (some [1, 2, 3])) (fun _ => 201)
      (by intro _ code; simp only [statusConn]; split <;> simp_all [eq_comm])
      demoHandle 1 none [] () () () rfl rfl rfl).1 rfl [1, 2, 3] [1, 2, 3] rfl rfl,
    (c11_status_decides_decoding (statusConn 404 (some [1, 2, 3])) (fun _ => 404)
      (by intro _ code; simp only [statusConn]; split <;> simp_all [eq_comm])
      demoHandle 1 none [] () () () rfl rfl rfl).2 (by decide)⟩

/-- C12: on a handle that `newTransaction` builds with the read sequence `R`
and the write sequence `W`, after any sequence of `AddAQL`, `AddJSQuery` and
`applyContextSettings` calls `Collections.Read` is `R` and
`Collections.Write` is `W`, and so they are in every body that `Execute`
hands to the transport. -/
theorem c12_collections_kept {Req Resp Dest : Type} (conn : Connection Req Resp Dest)
    (isPrintTable : Nat → Bool) (db : database) (R W : List String) (ops : List HandleOp)
    (order : Nat) (ctx : Context) (result : Dest) :
    (runOps isPrintTable (newTransaction db R W) ops).Collections.Read = R ∧
    (runOps isPrintTable (newTransaction db R W) ops).Collections.Write = W ∧
    ∀ b ∈ sentBodies
        (Execute conn (runOps isPrintTable (newTransaction db R W) ops) order ctx result).steps,
      b.Collections.Read = R ∧ b.Collections.Write = W := by
  have hops := runOps_Read_Write isPrintTable (newTransaction db R W) ops
  refine ⟨hops.1, hops.2, fun b hb => ?_⟩
  rw [sentBodies_Execute] at hb
  split at hb
  · simp at hb
  · simp only [List.mem_singleton] at hb
    have happly := applyContextSettings_Read_Write
      { runOps isPrintTable (newTransaction db R W) ops with
        Action := wrapAction
          (collectParamKeys order (runOps isPrintTable (newTransaction db R W) ops).Params)
          (runOps isPrintTable (newTransaction db R W) ops).Action } ctx
    rw [hb]
    exact ⟨happly.1.trans hops.1, happly.2.trans hops.2⟩

/-- C12 on a handle with the read sequence `["users", "orders"]` and the
write sequence `["orders"]`, after a query, a context and raw code: the body
sent has these sequences. -/
theorem c12_collections_kept_witness :
    (sentBodies (Execute (echoConn [])
        (runOps (fun _ => false) (newTransaction demoDb ["users", "orders"] ["orders"])
          [HandleOp.add (AddCall.aql "RETURN 1" none),
           HandleOp.applyContext (some syncOnlyCtx),
           HandleOp.add (AddCall.js "return 2;" none)])
        0 (some syncOnlyCtx) []).steps).map (fun b => (b.Collections.Read, b.Collections.Write))
      = [(["users", "orders"], ["orders"])] ∧
    ∀ b ∈ sentBodies (Execute (echoConn [])
        (runOps (fun _ => false) (newTransaction demoDb ["users", "orders"] ["orders"])
          [HandleOp.add (AddCall.aql "RETURN 1" none),
           HandleOp.applyContext (some syncOnlyCtx),
           HandleOp.add (AddCall.js "return 2;" none)])
        0 (some syncOnlyCtx) []).steps,
      b.Collections.Read = ["users", "orders"] ∧ b.Collections.Write = ["orders"] :=
  ⟨by decide,
    (c12_collections_kept (echoConn []) (fun _ => false) demoDb ["users", "orders"] ["orders"]
      [HandleOp.add (AddCall.aql "RETURN 1" none),
       HandleOp.applyContext (some syncOnlyCtx),
       HandleOp.add (AddCall.js "return 2;" none)]
      0 (some syncOnlyCtx) []).2.2⟩

/-- C13: `Execute` returns no error exactly when every transport step
succeeds, in the order request construction, body attachment, dispatch,
status check against 201, body parsing, result decoding; when a step fails,
`Execute` returns the error of that step, passed through `WithStack`, and
the calls made end with that step. -/
theorem c13_first_failure_is_returned {Req Resp Dest : Type} (conn : Connection Req Resp Dest)
    (tx : transaction) (order : Nat) (ctx : Context) (result : Dest) :
    ((Execute conn tx order ctx result).outcome = Outcome.returned none ↔
      AllStepsSucceed conn tx order ctx result) ∧
    (∀ err, conn.NewRequest "POST" (tx.relPath conn) = Except.error err →
      Execute conn tx order ctx result =
        ⟨tx, result, [Step.newRequest "POST" (tx.relPath conn)],
          Outcome.returned (some (conn.WithStack err))⟩) ∧
    (∀ req err, conn.NewRequest "POST" (tx.relPath conn) = Except.ok req →
      conn.SetBody req (requestBody tx order ctx) = Except.error err →
      Execute conn tx order ctx result =
        ⟨tx, result,
          [Step.newRequest "POST" (tx.relPath conn),
            Step.setBody (requestBody tx order ctx)],
          Outcome.returned (some (conn.WithStack err))⟩) ∧
    (∀ req req1 err, conn.NewRequest "POST" (tx.relPath conn) = Except.ok req →
      conn.SetBody req (requestBody tx order ctx) = Except.ok req1 →
      conn.Do ctx req1 = Except.error err →
      Execute conn tx order ctx result =
        ⟨tx, result,
          [Step.newRequest "POST" (tx.relPath conn),
            Step.setBody (requestBody tx order ctx), Step.doRequest],
          Outcome.returned (some (conn.WithStack err))⟩) ∧
    (∀ req req1 resp err, conn.NewRequest "POST" (tx.relPath conn) = Except.ok req →
      conn.SetBody req (requestBody tx order ctx) = Except.ok req1 →
      conn.Do ctx req1 = Except.ok resp →
      conn.CheckStatus resp 201 = some err →
      Execute conn tx order ctx result =
        ⟨tx, result,
          [Step.newRequest "POST" (tx.relPath conn),
            Step.setBody (requestBody tx order ctx), Step.doRequest,
            Step.checkStatus 201],
          Outcome.returned (some (conn.WithStack err))⟩) ∧
    (∀ req req1 resp err, conn.NewRequest "POST" (tx.relPath conn) = Except.ok req →
      conn.SetBody req (requestBody tx order ctx) = Except.ok req1 →
      conn.Do ctx req1 = Except.ok resp →
      conn.CheckStatus resp 201 = none →
      conn.ParseBody resp "" = Except.error err →
      Execute conn tx order ctx result =
        ⟨tx, result,
          [Step.newRequest "POST" (tx.relPath conn),
            Step.setBody (requestBody tx order ctx), Step.doRequest,
            Step.checkStatus 201, Step.parseBody ""],
          Outcome.returned (some (conn.WithStack err))⟩) ∧
    (∀ req req1 resp raw decoded err, conn.NewRequest "POST" (tx.relPath conn) = Except.ok req →
      conn.SetBody req (requestBody tx order ctx) = Except.ok req1 →
      conn.Do ctx req1 = Except.ok resp →
      conn.CheckStatus resp 201 = none →
      conn.ParseBody resp "" = Except.ok { Result := some raw } →
      conn.Unmarshal raw result = (decoded, err) →
      Execute conn tx order ctx result =
        ⟨tx, decoded,
          [Step.newRequest "POST" (tx.relPath conn),
            Step.setBody (requestBody tx order ctx), Step.doRequest,
            Step.checkStatus 201, Step.parseBody "", Step.unmarshal raw],
          Outcome.returned (err.map conn.WithStack)⟩) := by
  refine ⟨?_, ?_, ?_, ?_, ?_, ?_, ?_⟩
  · constructor
    · intro hout
      rcases h1 : conn.NewRequest "POST" (tx.relPath conn) with err | req
      · rw [Execute_of_NewRequest_error conn tx order ctx result err h1] at hout
        simp at hout
      rcases h2 : conn.SetBody req (requestBody tx order ctx) with err | req1
      · rw [Execute_of_SetBody_error conn tx order ctx result req err h1 h2] at hout
        simp at hout
      rcases h3 : conn.Do ctx req1 with err | resp
      · rw [Execute_of_Do_error conn tx order ctx result req req1 err h1 h2 h3] at hout
        simp at hout
      rcases h4 : conn.CheckStatus resp 201 with _ | err
      swap
      · rw [Execute_of_CheckStatus_error conn tx order ctx result req req1 resp err
          h1 h2 h3 h4] at hout
        simp at hout
      rcases h5 : conn.ParseBody resp "" with err | ⟨_ | raw⟩
      · rw [Execute_of_ParseBody_error conn tx order ctx result req req1 resp err
          h1 h2 h3 h4 h5] at hout
        simp at hout
      · rw [Execute_of_nil_Result conn tx order ctx result req req1 resp
          h1 h2 h3 h4 h5] at hout
        simp at hout
      · rw [Execute_of_Unmarshal conn tx order ctx result req req1 resp raw
          h1 h2 h3 h4 h5] at hout
        rcases h6 : conn.Unmarshal raw result with ⟨decoded, _ | err⟩
        · exact ⟨req, req1, resp, raw, decoded, h1, h2, h3, h4, h5, h6⟩
        · rw [h6] at hout
          simp at hout
    · rintro ⟨req, req1, resp, raw, decoded, h1, h2, h3, h4, h5, h6⟩
      rw [Execute_of_Unmarshal conn tx order ctx result req req1 resp raw h1 h2 h3 h4 h5, h6]
      rfl
  · intro err h1
    exact Execute_of_NewRequest_error conn tx order ctx result err h1
  · intro req err h1 h2
    exact Execute_of_SetBody_error conn tx order ctx result req err h1 h2
  · intro req req1 err h1 h2 h3
    exact Execute_of_Do_error conn tx order ctx result req req1 err h1 h2 h3
  · intro req req1 resp err h1 h2 h3 h4
    exact Execute_of_CheckStatus_error conn tx order ctx result req req1 resp err h1 h2 h3 h4
  · intro req req1 resp err h1 h2 h3 h4 h5
    exact Execute_of_ParseBody_error conn tx order ctx result req req1 resp err
      h1 h2 h3 h4 h5
  · intro req req1 resp raw decoded err h1 h2 h3 h4 h5 h6
    rw [Execute_of_Unmarshal conn tx order ctx result req req1 resp raw h1 h2 h3 h4 h5, h6]

/-- C13 at three transports: one that cannot build the request (no later
call is made), one whose dispatch fails (no status check, parsing or decoding
is made), and one whose every step succeeds. -/
theorem c13_first_failure_is_returned_witness :
    (Execute (stagedConn 1 (some [7])) demoHandle 1 none []).steps
      = [Step.newRequest "POST" "_db/demo/_api/transaction"] ∧
    (Execute (stagedConn 1 (some [7])) demoHandle 1 none []).outcome
      = Outcome.returned (some "cannot build request") ∧
    (Execute (stagedConn 3 (some [7])) demoHandle 1 none []).steps
      = [Step.newRequest "POST" "_db/demo/_api/transaction",
          Step.setBody (requestBody demoHandle 1 none), Step.doRequest] ∧
    (Execute (stagedConn 3 (some [7])) demoHandle 1 none []).outcome
      = Outcome.returned (some "connection refused") ∧
    (Execute (stagedConn 0 (some [7])) demoHandle 1 none []).outcome
      = Outcome.returned none :=
  ⟨congrArg ExecuteRun.steps
      ((c13_first_failure_is_returned (stagedConn 1 (some [7])) demoHandle 1 none
        []).2.1 "cannot build request" rfl),
    congrArg ExecuteRun.outcome
      ((c13_first_failure_is_returned (stagedConn 1 (some [7])) demoHandle 1 none
        []).2.1 "cannot build request" rfl),
    congrArg ExecuteRun.steps
      ((c13_first_failure_is_returned (stagedConn 3 (some [7])) demoHandle 1 none
        []).2.2.2.1 () () "connection refused" rfl rfl rfl),
    congrArg ExecuteRun.outcome
      ((c13_first_failure_is_returned (stagedConn 3 (some [7])) demoHandle 1 none
        []).2.2.2.1 () () "connection refused" rfl rfl rfl),
    (c13_first_failure_is_returned (stagedConn 0 (some [7])) demoHandle 1 none
        []).1.mpr ⟨(), (), (), [7], [7], rfl, rfl, rfl, rfl, rfl, rfl⟩⟩

/-- C15: for a non-nil context in which the wait-for-sync key holds the
boolean `v`, `applyContextSettings` leaves both `WaitForSync` and
`Collections.AllowImplicit` equal to `v`, whatever they were and whatever the
allow-implicit key holds; and two contexts that hold the same value under the
wait-for-sync key leave the same `Collections.AllowImplicit`. -/
theorem c15_wait_for_sync_sets_allow_implicit (tx : transaction) (c : Ctx) (v : Bool)
    (hv : c.Value (GoValue.string keyTransactionWaitForSync) = GoValue.bool v) :
    (applyContextSettings tx (some c)).WaitForSync = v ∧
    (applyContextSettings tx (some c)).Collections.AllowImplicit = v ∧
    (∀ c1 c2 : Ctx,
      c1.Value (GoValue.string keyTransactionWaitForSync)
        = c2.Value (GoValue.string keyTransactionWaitForSync) →
      (applyContextSettings tx (some c1)).Collections.AllowImplicit
        = (applyContextSettings tx (some c2)).Collections.AllowImplicit) := by
  refine ⟨(applyContextSettings_of_bool tx c v hv).1, (applyContextSettings_of_bool tx c v hv).2,
    fun c1 c2 h12 => ?_⟩
  simp only [applyContextSettings, h12]
  generalize c2.Value (GoValue.string keyTransactionWaitForSync) = w
  generalize c1.Value (GoValue.string keyTransactionLockTimeout) = l1
  generalize c2.Value (GoValue.string keyTransactionLockTimeout) = l2
  cases w <;> cases l1 <;> cases l2 <;> rfl

/-- C15 at a context with the wait-for-sync key true and the allow-implicit
key false, on a fresh handle: both fields are true afterwards. -/
theorem c15_wait_for_sync_sets_allow_implicit_witness :
    syncOnlyCtx.Value (GoValue.string keyTransactionAllowImplicit) = GoValue.bool false ∧
    (applyContextSettings (newTransaction demoDb [] []) (some syncOnlyCtx)).WaitForSync = true ∧
    (applyContextSettings (newTransaction demoDb [] [])
      (some syncOnlyCtx)).Collections.AllowImplicit = true :=
  ⟨by decide,
    (c15_wait_for_sync_sets_allow_implicit (newTransaction demoDb [] []) syncOnlyCtx true
      (by decide)).1,
    (c15_wait_for_sync_sets_allow_implicit (newTransaction demoDb [] []) syncOnlyCtx true
      (by decide)).2.1⟩

/-- C16: for a response that passes the status check against 201 and whose
body parses: when the parsed result pointer is nil, `Execute` neither returns
an error nor returns nil, it panics on the nil dereference before any
decoding call, the destination as it was; when the pointer is not nil, the
decoding call is made and `Execute` returns what it returns, the error passed
through `WithStack`. So `Execute` panics exactly when the pointer is nil. -/
theorem c16_nil_result_panics {Req Resp Dest : Type} (conn : Connection Req Resp Dest)
    (tx : transaction) (order : Nat) (ctx : Context) (result : Dest)
    (req req1 : Req) (resp : Resp) (data : transactionData)
    (h1 : conn.NewRequest "POST" (tx.relPath conn) = Except.ok req)
    (h2 : conn.SetBody req (requestBody tx order ctx) = Except.ok req1)
    (h3 : conn.Do ctx req1 = Except.ok resp)
    (h4 : conn.CheckStatus resp 201 = none)
    (h5 : conn.ParseBody resp "" = Except.ok data) :
    (data.Result = none →
      (Execute conn tx order ctx result).outcome
        = Outcome.panicked "runtime error: invalid memory address or nil pointer dereference" ∧
      (∀ err, (Execute conn tx order ctx result).outcome ≠ Outcome.returned err) ∧
      (∀ raw, Step.unmarshal raw ∉ (Execute conn tx order ctx result).steps) ∧
      (Execute conn tx order ctx result).dest = result) ∧
    (∀ raw, data.Result = some raw →
      Step.unmarshal raw ∈ (Execute conn tx order ctx result).steps ∧
      (Execute conn tx order ctx result).outcome
        = Outcome.returned ((conn.Unmarshal raw result).2.map conn.WithStack) ∧
      (Execute conn tx order ctx result).dest = (conn.Unmarshal raw result).1) ∧
    ((∃ msg, (Execute conn tx order ctx result).outcome = Outcome.panicked msg) ↔
      data.Result = none) := by
  obtain ⟨parsed⟩ := data
  cases parsed with
  | none =>
    have hrun := Execute_of_nil_Result conn tx order ctx result req req1 resp h1 h2 h3 h4 h5
    refine ⟨fun _ => ?_, fun raw hraw => ?_, ?_⟩
    · rw [hrun]
      refine ⟨rfl, ?_, ?_, rfl⟩
      · intro err
        simp
      · intro raw
        simp
    · cases hraw
    · rw [hrun]
      simp
  | some raw =>
    have hrun := Execute_of_Unmarshal conn tx order ctx result req req1 resp raw
      h1 h2 h3 h4 h5
    refine ⟨fun hnone => ?_, fun raw1 hraw => ?_, ?_⟩
    · cases hnone
    · cases hraw
      rw [hrun]
      refine ⟨?_, rfl, rfl⟩
      simp
    · rw [hrun]
      simp

/-- C16 at a 201 response whose body has no result (the run panics after the
parsing call) and at one whose body has the result `[7]` (the run returns nil
with the destination `[7]`). -/
theorem c16_nil_result_panics_witness :
    ((Execute (statusConn 201 none) demoHandle 1 none []).outcome
        = Outcome.panicked "runtime error: invalid memory address or nil pointer dereference" ∧
      (∀ err, (Execute (statusConn 201 none) demoHandle 1 none []).outcome
        ≠ Outcome.returned err) ∧
      (∀ raw, Step.unmarshal raw ∉
        (Execute (statusConn 201 none) demoHandle 1 none []).steps) ∧
      (Execute (statusConn 201 none) demoHandle 1 none []).dest = []) ∧
    (Step.unmarshal [7] ∈
        (Execute (statusConn 201 (some [7])) demoHandle 1 none []).steps ∧
      (Execute (statusConn 201 (some [7])) demoHandle 1 none []).outcome
        = Outcome.returned none ∧
      (Execute (statusConn 201 (some [7])) demoHandle 1 none []).dest = [7]) :=
  ⟨(c16_nil_result_panics (statusConn 201 none) demoHandle 1 none [] () () ()
      { Result := none } rfl rfl rfl rfl rfl).1 rfl,
    (c16_nil_result_panics (statusConn 201 (some [7])) demoHandle 1 none [] () () ()
      { Result := some [7] } rfl rfl rfl rfl rfl).2.1 [7] rfl⟩

/-- C14: in the JSON object that the field tags give for a handle, the key
`waitForSync` is present exactly when `WaitForSync` is true, `lockTimeout`
exactly when `LockTimeout` is not 0, `params` exactly when `Params` has a
key, and in the object under `collections` the keys `read`, `write` and
`allowImplicit` are present exactly when the sequence is not empty or the
flag is true. -/
theorem c14_omitempty_keys (encodeOther : Nat → Option JSON) (tx : transaction) (j : JSON)
    (hj : Marshal encodeOther tx = some j) :
    (j.hasKey "waitForSync" = true ↔ tx.WaitForSync = true) ∧
    (j.hasKey "lockTimeout" = true ↔ tx.LockTimeout ≠ 0) ∧
    (j.hasKey "params" = true ↔ mapKeys tx.Params ≠ []) ∧
    ∃ c, j.get "collections" = some c ∧
      (c.hasKey "read" = true ↔ tx.Collections.Read ≠ []) ∧
      (c.hasKey "write" = true ↔ tx.Collections.Write ≠ []) ∧
      (c.hasKey "allowImplicit" = true ↔ tx.Collections.AllowImplicit = true) := by
  unfold Marshal at hj
  split at hj
  · cases hj
  · next params _ =>
    cases hj
    refine ⟨?_, ?_, ?_, marshalCollections tx.Collections, ?_, ?_, ?_, ?_⟩
    · cases hA : (tx.Action.length == 0) <;> cases hW : tx.WaitForSync <;>
        simp [JSON.hasKey, JSON.get, omitEmpty, hA, List.find?_cons, List.find?_append]
    · cases hA : (tx.Action.length == 0) <;> cases hW : tx.WaitForSync <;>
        by_cases hL : tx.LockTimeout = 0 <;>
        simp [JSON.hasKey, JSON.get, omitEmpty, hA, hL, List.find?_cons, List.find?_append]
    · cases hA : (tx.Action.length == 0) <;> cases hW : tx.WaitForSync <;>
        by_cases hL : tx.LockTimeout = 0 <;> by_cases hP : mapKeys tx.Params = [] <;>
        simp [JSON.hasKey, JSON.get, omitEmpty, hA, hL, hP, List.find?_cons, List.find?_append]
    · simp [JSON.get, omitEmpty, List.find?_cons]
    · by_cases hR : tx.Collections.Read = [] <;>
        simp [marshalCollections, JSON.hasKey, JSON.get, omitEmpty, hR, List.find?_cons,
          List.find?_append]
    · by_cases hR : tx.Collections.Read = [] <;> by_cases hWr : tx.Collections.Write = [] <;>
        simp [marshalCollections, JSON.hasKey, JSON.get, omitEmpty, hR, hWr, List.find?_cons,
          List.find?_append]
    · by_cases hR : tx.Collections.Read = [] <;> by_cases hWr : tx.Collections.Write = [] <;>
        cases hI : tx.Collections.AllowImplicit <;>
        simp [marshalCollections, JSON.hasKey, JSON.get, omitEmpty, hR, hWr, hI, List.find?_cons,
          List.find?_append]

/-- C14 at the body sent for `demoHandle` under a context with wait-for-sync
true, and at a fresh handle, whose object has the key `collections` only. -/
theorem c14_omitempty_keys_witness :
    Marshal (fun _ => none) (requestBody demoHandle 1 (some syncOnlyCtx))
      = some demoJSON ∧
    Marshal (fun _ => none) (newTransaction demoDb [] [])
      = some (JSON.object [("collections", JSON.object [])]) ∧
    ((demoJSON.hasKey "waitForSync" = true ↔
        (requestBody demoHandle 1 (some syncOnlyCtx)).WaitForSync = true) ∧
      (demoJSON.hasKey "lockTimeout" = true ↔
        (requestBody demoHandle 1 (some syncOnlyCtx)).LockTimeout ≠ 0) ∧
      (demoJSON.hasKey "params" = true ↔
        mapKeys (requestBody demoHandle 1 (some syncOnlyCtx)).Params ≠ []) ∧
      ∃ c, demoJSON.get "collections" = some c ∧
        (c.hasKey "read" = true ↔
          (requestBody demoHandle 1 (some syncOnlyCtx)).Collections.Read ≠ []) ∧
        (c.hasKey "write" = true ↔
          (requestBody demoHandle 1 (some syncOnlyCtx)).Collections.Write ≠ []) ∧
        (c.hasKey "allowImplicit" = true ↔
          (requestBody demoHandle 1
            (some syncOnlyCtx)).Collections.AllowImplicit = true)) :=
  ⟨rfl, rfl,
    c14_omitempty_keys (fun _ => none) (requestBody demoHandle 1 (some syncOnlyCtx))
      demoJSON rfl⟩

end Driver
